import Mathlib

/-!
Verification of the streaming generation bridge in `src/worker/main.py`
(`LLMService.ChatStream` and its inner `_run_generation` producer), as a
shallow embedding in Lean.

The producer thread iterates `stream_generate` and pushes tagged events
(`("chunk", text)`, `("done", None)`, `("error", exc)`) onto an
`asyncio.Queue` via `loop.call_soon_threadsafe(queue.put_nowait, ...)`;
the consumer coroutine drains the queue under `async with self._lock` and
yields one gRPC `ChatResponse` per chunk.  Because each session has one
producer and one FIFO queue, the single-session data flow serializes to
`drainQueue (runProducer run)` below; the two-session interleaving needed
for the mutual-exclusion property is modelled separately as a step
relation at the end of the file.
-/

namespace Worker

/-- One item yielded by the engine iterator (`mlx_lm.stream_generate`).
`hasText` models the Python test `hasattr(response, "text")` on line 89;
`text` is the value of the attribute when present (irrelevant otherwise). -/
structure EngineResponse where
  hasText : Bool
  text : String
deriving DecidableEq, Repr

/-- One run of the engine iterator inside `_run_generation`: the responses it
yields in order, then either normal exhaustion (`failure = none`) or an
exception whose `str` is `msg` (`failure = some msg`).  An exception raised
before the first yield (for example by `make_sampler`) is a run with no
responses.  The `except Exception` on line 95 catches every such exception. -/
structure EngineRun where
  responses : List EngineResponse
  failure : Option String
deriving DecidableEq, Repr

/-- A tagged event placed on the queue by `_run_generation` (lines 88-97). -/
inductive Event where
  | chunk (text : String)
  | done
  | error (msg : String)
deriving DecidableEq, Repr

/-- `done` and `error` are the terminal events of a session. -/
def Event.isTerminal : Event → Bool
  | .chunk _ => false
  | .done => true
  | .error _ => true

/-- Line 73: `queue = asyncio.Queue()`.  The constructor is called with no
`maxsize` argument, so `maxsize = 0`, which asyncio defines as an unbounded
queue. -/
def queue_maxsize : Nat := 0

/-- `queue.put_nowait(e)`, as scheduled by `loop.call_soon_threadsafe` on
lines 90-97: appends the event to the queue.  On a queue with `maxsize = 0`
it never blocks, never raises `QueueFull` and never drops an item. -/
def put_nowait (q : List Event) (e : Event) : List Event := q ++ [e]

/-- The chunk events pushed by the `for response in stream_generate(...)`
loop (lines 81-93): a response contributes one `chunk` event carrying
`response.text` exactly when `hasattr(response, "text")`, and nothing
otherwise. -/
def chunkEvents (responses : List EngineResponse) : List Event :=
  (responses.filter (fun r => r.hasText)).map (fun r => Event.chunk r.text)

/-- `_run_generation` (lines 75-97), sequentialized: the events it pushes, in
push order.  On normal exhaustion the loop is followed by `("done", None)`
(line 94); when the iteration raises, the chunks already pushed are followed
by `("error", exc)` from the `except` handler (lines 95-97). -/
def runProducer (run : EngineRun) : List Event :=
  match run.failure with
  | none => chunkEvents run.responses ++ [Event.done]
  | some msg => chunkEvents run.responses ++ [Event.error msg]

/-- Outcome of the consumer loop as seen by the gRPC caller. -/
inductive StreamResult where
  | completed
  | internalError (msg : String)
  | blocked
deriving DecidableEq, Repr

/-- The consumer loop of `ChatStream` (lines 103-114): repeatedly
`await queue.get()`; on `"chunk"` yield one `ChatResponse(text_chunk=payload)`
and continue; on `"done"` break (stream closes normally); on `"error"` call
`await context.abort(grpc.StatusCode.INTERNAL, str(payload))`, which raises
and aborts the RPC with the exception message.  Returns the yielded text
chunks in order, paired with the terminal outcome; `blocked` marks a queue
exhausted without a terminal event, where the real coroutine would wait
forever. -/
def drainQueue : List Event → List String × StreamResult
  | [] => ([], StreamResult.blocked)
  | Event.chunk t :: rest =>
      let r := drainQueue rest
      (t :: r.1, r.2)
  | Event.done :: _ => ([], StreamResult.completed)
  | Event.error msg :: _ => ([], StreamResult.internalError msg)

/-- Line 85: `max_tokens=request.max_tokens or 256`.  A proto3 int field
is 0 when unset, and Python `or` substitutes 256 exactly when the stored
value is falsy, that is, equal to 0; any other value passes through. -/
def effective_max_tokens (requested : Int) : Int :=
  if requested = 0 then 256 else requested

/-- Lines 77-79: `sampler = make_sampler(temp=...)` is built exactly when
`request.temperature and request.temperature > 0`.  The float field is
modelled by a rational; the truthiness test plus the comparison collapse to
`0 < t`. -/
def sampler_enabled (t : Rat) : Bool := decide (0 < t)

/-- One `{role, content}` chat turn of the request. -/
structure ChatMessage where
  role : String
  content : String
deriving DecidableEq, Repr

/-- The fallback branch of `build_prompt` (lines 30-33): one `role: content`
line per message, then a final `assistant:` line, joined by newlines. -/
def build_prompt_fallback (messages : List ChatMessage) : String :=
  String.intercalate "\n"
    ((messages.map (fun m => m.role ++ ": " ++ m.content)) ++ ["assistant:"])

/-- `build_prompt` (lines 21-33): when the tokenizer has
`apply_chat_template` that external collaborator renders the chat (modelled
as an opaque function `template`); otherwise the fallback is used. -/
def build_prompt (template : Option (List ChatMessage → String))
    (messages : List ChatMessage) : String :=
  match template with
  | some f => f messages
  | none => build_prompt_fallback messages

/-- The fields of the incoming `ChatStream` request that the handler reads:
`messages`, `max_tokens` and `temperature`. -/
structure Request where
  messages : List ChatMessage
  max_tokens : Int
  temperature : Rat
deriving DecidableEq, Repr

/-- Result of one `ChatStream` call as the gRPC client sees it.
`invalidArgument` is the client-error rejection the gRPC surface offers;
it is listed so that its absence from the handler is expressible. -/
inductive RpcOutcome where
  | invalidArgument (msg : String)
  | streamed (chunks : List String) (result : StreamResult)
deriving DecidableEq, Repr

/-- `LLMService.ChatStream` (lines 64-120), single-session functional view.
`engine` is the external `stream_generate` collaborator, mapping the built
prompt, the effective token budget and the sampler switch to an engine run.
The body performs no request validation: every request, whatever its
`messages`, `max_tokens` or `temperature`, has its prompt built, its queue
created, its producer started under the lock, and its queue drained. -/
def ChatStream (engine : String → Int → Bool → EngineRun)
    (template : Option (List ChatMessage → String)) (req : Request) :
    RpcOutcome :=
  let prompt := build_prompt template req.messages
  let run := engine prompt (effective_max_tokens req.max_tokens)
    (sampler_enabled req.temperature)
  let r := drainQueue (runProducer run)
  RpcOutcome.streamed r.1 r.2

/-- A client-disconnect instant, counted in engine responses: `setAfter = some k`
means the client is gone once the first `k` responses have been produced;
`none` means the client never disconnects. -/
structure CancellationSignal where
  setAfter : Option Nat
deriving DecidableEq, Repr

/-- `_run_generation` with the disconnect instant made explicit.  The loop
body (lines 81-93) reads no flag, `context` is never consulted from the
thread, and no cancellation token exists anywhere in the file, so the events
pushed are those of `runProducer` whatever the signal says. -/
def runProducerUnderDisconnect (sig : CancellationSignal) (run : EngineRun) :
    List Event :=
  runProducer run

theorem foldl_put_nowait (es q : List Event) :
    es.foldl put_nowait q = q ++ es := by
  induction es generalizing q with
  | nil => simp
  | cons e es ih => simp [put_nowait, ih]

theorem drainQueue_chunkEvents (rs : List EngineResponse) (l : List Event) :
    drainQueue (chunkEvents rs ++ l) =
      ((rs.filter (fun r => r.hasText)).map (fun r => r.text) ++ (drainQueue l).1,
        (drainQueue l).2) := by
  induction rs with
  | nil => simp [chunkEvents]
  | cons r rs ih =>
    by_cases h : r.hasText
    · simp [chunkEvents, List.filter_cons, h, drainQueue] at ih ⊢
      simp [ih]
    · simp [chunkEvents, List.filter_cons, h] at ih ⊢
      simp [ih]

theorem isTerminal_of_mem_chunkEvents (rs : List EngineResponse) (e : Event)
    (h : e ∈ chunkEvents rs) : e.isTerminal = false := by
  simp only [chunkEvents, List.mem_map] at h
  obtain ⟨r, _, rfl⟩ := h
  rfl

theorem filter_isTerminal_chunkEvents (rs : List EngineResponse) :
    (chunkEvents rs).filter (fun e => e.isTerminal) = [] :=
  List.filter_eq_nil_iff.2 (fun e he => by
    simp [isTerminal_of_mem_chunkEvents rs e he])

/-- C4: for every session, `_run_generation` enqueues exactly one terminal
event (`done` on normal exhaustion, `error` on an exception), it is always
the last item in the channel, everything before it is a chunk, and hence the
consumer never observes a chunk after the terminal event of its session. -/
theorem terminal_event_unique_and_last (run : EngineRun) :
    ∃ pre last, runProducer run = pre ++ [last] ∧ last.isTerminal = true ∧
      (∀ e ∈ pre, e.isTerminal = false) ∧
      (runProducer run).filter (fun e => e.isTerminal) = [last] := by
  rcases run with ⟨rs, failure⟩
  cases failure with
  | none =>
    refine ⟨chunkEvents rs, Event.done, rfl, rfl,
      isTerminal_of_mem_chunkEvents rs, ?_⟩
    simp [runProducer, List.filter_append, Event.isTerminal]
    exact fun e he => isTerminal_of_mem_chunkEvents rs e he
  | some msg =>
    refine ⟨chunkEvents rs, Event.error msg, rfl, rfl,
      isTerminal_of_mem_chunkEvents rs, ?_⟩
    simp [runProducer, List.filter_append, Event.isTerminal]
    exact fun e he => isTerminal_of_mem_chunkEvents rs e he

/-- C4 witness. -/
theorem terminal_event_unique_and_last_witness :
    ∃ pre last,
      runProducer ⟨[⟨true, "a"⟩], none⟩ = pre ++ [last] ∧
      last.isTerminal = true ∧ (∀ e ∈ pre, e.isTerminal = false) ∧
      (runProducer ⟨[⟨true, "a"⟩], none⟩).filter (fun e => e.isTerminal) =
        [last] :=
  terminal_event_unique_and_last ⟨[⟨true, "a"⟩], none⟩

theorem drained_texts (run : EngineRun) :
    (drainQueue (runProducer run)).1 =
      (run.responses.filter (fun r => r.hasText)).map (fun r => r.text) := by
  rcases run with ⟨rs, failure⟩
  cases failure with
  | none => simp [runProducer, drainQueue_chunkEvents, drainQueue]
  | some msg => simp [runProducer, drainQueue_chunkEvents, drainQueue]

/-- C5: the text increments the consumer observes are exactly the text
attributes of the text-bearing engine responses, in production order: one
outbound message per chunk, never batched, never reordered, never
coalesced.  This holds on the normal and on the failing runs alike. -/
theorem chunk_order_preserved (run : EngineRun) :
    (drainQueue (runProducer run)).1 =
      (run.responses.filter (fun r => r.hasText)).map (fun r => r.text) :=
  drained_texts run

/-- C6: when the engine iteration raises (any exception, anywhere in the
run), the producer pushes exactly one `error` event carrying `str(exc)`, and
the consumer aborts the RPC with an internal-error status whose message is
that string verbatim; the worker never dies silently leaving the consumer
blocked. -/
theorem engine_failure_aborts_internal (rs : List EngineResponse)
    (msg : String) :
    (runProducer ⟨rs, some msg⟩).filter (fun e => e.isTerminal) =
      [Event.error msg] ∧
    (drainQueue (runProducer ⟨rs, some msg⟩)).2 =
      StreamResult.internalError msg := by
  constructor
  · simp [runProducer, List.filter_append, Event.isTerminal]
    exact fun e he => isTerminal_of_mem_chunkEvents rs e he
  · simp [runProducer, drainQueue_chunkEvents, drainQueue]

/-- C8: a `max_tokens` of 0 (the proto3 value of an unset field) is replaced
by the default budget 256, and any positive `max_tokens` is passed through
unchanged. -/
theorem max_tokens_default_substitution :
    effective_max_tokens 0 = 256 ∧
    ∀ n : Int, 0 < n → effective_max_tokens n = n := by
  refine ⟨rfl, fun n hn => ?_⟩
  have h : n ≠ 0 := by omega
  simp [effective_max_tokens, h]

/-- C8 witness. -/
theorem max_tokens_default_substitution_witness :
    effective_max_tokens 0 = 256 ∧ effective_max_tokens 7 = 7 :=
  ⟨max_tokens_default_substitution.1,
    max_tokens_default_substitution.2 7 (by decide)⟩

/-- C10: an engine response without a `text` attribute contributes no event
at all — no chunk, no error — and the session still ends with its normal
`done` event once the loop finishes. -/
theorem textless_response_skipped (pre post : List EngineResponse)
    (r : EngineResponse) (h : r.hasText = false) :
    runProducer ⟨pre ++ r :: post, none⟩ = runProducer ⟨pre ++ post, none⟩ ∧
    ∃ cs, runProducer ⟨pre ++ r :: post, none⟩ = cs ++ [Event.done] := by
  refine ⟨?_, chunkEvents (pre ++ r :: post), rfl⟩
  simp [runProducer, chunkEvents, List.filter_append, List.filter_cons, h]

/-- C10 witness. -/
theorem textless_response_skipped_witness :
    runProducer ⟨[⟨true, "a"⟩] ++ ⟨false, "x"⟩ :: [⟨true, "b"⟩], none⟩ =
      runProducer ⟨[⟨true, "a"⟩] ++ [⟨true, "b"⟩], none⟩ ∧
    ∃ cs, runProducer ⟨[⟨true, "a"⟩] ++ ⟨false, "x"⟩ :: [⟨true, "b"⟩], none⟩ =
      cs ++ [Event.done] :=
  textless_response_skipped [⟨true, "a"⟩] [⟨true, "b"⟩] ⟨false, "x"⟩ rfl

/-- C2 counterexample: the channel is not a bounded FIFO of capacity 128.
Pushing 129 chunks into the fresh queue succeeds without blocking and leaves
129 in-flight items, more than the claimed capacity. -/
theorem queue_exceeds_128 :
    ((List.replicate 129 (Event.chunk "x")).foldl put_nowait []).length = 129 ∧
    128 < 129 := by
  rw [foldl_put_nowait]
  simp

/-- C2 amended: `asyncio.Queue()` on line 73 is created with `maxsize = 0`,
an unbounded queue, and the producer pushes with `put_nowait`: pushes never
block, every pushed item is retained, FIFO order is kept, and the queue
grows without any capacity bound, so there is no backpressure. -/
theorem queue_unbounded_fifo (es q : List Event) :
    es.foldl put_nowait q = q ++ es ∧ queue_maxsize = 0 :=
  ⟨foldl_put_nowait es q, rfl⟩

/-- The five-chunk engine run used to exhibit the missing cancellation
check. -/
def fiveChunkRun : EngineRun :=
  ⟨[⟨true, "c0"⟩, ⟨true, "c1"⟩, ⟨true, "c2"⟩, ⟨true, "c3"⟩, ⟨true, "c4"⟩],
    none⟩

/-- C3 counterexample: with the client disconnecting after the first
response, the producer still pushes `c1 .. c4` — all of them produced after
the disconnect instant — so chunks produced after T are forwarded to the
consumer and the producer does not stop within one generation step. -/
theorem chunks_after_disconnect_forwarded :
    runProducerUnderDisconnect ⟨some 1⟩ fiveChunkRun =
      [Event.chunk "c0", Event.chunk "c1", Event.chunk "c2",
        Event.chunk "c3", Event.chunk "c4", Event.done] := by
  rfl

/-- C3 amended: the producer loop never reads any cancellation flag (none
exists in the file), so the events it pushes are independent of the
disconnect instant: every text-bearing chunk of the run is forwarded in
order whatever the signal, and the producer stops only when the engine run
is exhausted or raises. -/
theorem producer_ignores_disconnect (sig sig2 : CancellationSignal)
    (run : EngineRun) :
    runProducerUnderDisconnect sig run = runProducerUnderDisconnect sig2 run ∧
    (drainQueue (runProducerUnderDisconnect sig run)).1 =
      (run.responses.filter (fun r => r.hasText)).map (fun r => r.text) := by
  refine ⟨rfl, ?_⟩
  rcases run with ⟨rs, failure⟩
  cases failure with
  | none =>
    simp [runProducerUnderDisconnect, runProducer, drainQueue_chunkEvents,
      drainQueue]
  | some msg =>
    simp [runProducerUnderDisconnect, runProducer, drainQueue_chunkEvents,
      drainQueue]

/-- C7 counterexample: a request with an empty message list (and `max_tokens`
0, temperature 0) is not rejected with a client-error status: the handler
builds the fallback prompt `assistant:`, invokes the engine on it with the
default budget, and streams the result — here an echo engine shows the
engine really ran on that prompt. -/
theorem empty_request_not_rejected :
    ChatStream (fun p _ _ => ⟨[⟨true, p⟩], none⟩) none ⟨[], 0, 0⟩ =
      RpcOutcome.streamed ["assistant:"] StreamResult.completed := by
  rfl

/-- C7 amended: `ChatStream` performs no request validation at all: every
request — an empty message list and out-of-range sampling parameters
included — enters the session path (prompt built, producer run, queue
drained) and is answered with a stream; no code path produces a client-error
rejection. -/
theorem no_request_validation (engine : String → Int → Bool → EngineRun)
    (template : Option (List ChatMessage → String)) (req : Request) :
    (∃ cs res, ChatStream engine template req =
      RpcOutcome.streamed cs res) ∧
    ∀ msg, ChatStream engine template req ≠ RpcOutcome.invalidArgument msg := by
  refine ⟨⟨_, _, rfl⟩, fun msg h => ?_⟩
  simp [ChatStream] at h

/-- The one-response engine run whose single chunk is the empty string. -/
def emptyTextRun : EngineRun := ⟨[⟨true, ""⟩], none⟩

/-- C9 counterexample: an engine response whose `text` attribute is the
empty string is forwarded as-is, so the consumer is handed an empty text
increment — the code never checks chunks for non-emptiness. -/
theorem empty_chunk_delivered :
    (drainQueue (runProducer emptyTextRun)).1 = [""] ∧
    ("" : String).length = 0 := by
  constructor <;> rfl

/-- C9 amended: every text increment the consumer observes is the `text`
attribute of some text-bearing engine response, forwarded verbatim — which
may be the empty string, since no non-emptiness check exists between the
engine and the wire. -/
theorem delivered_text_verbatim (run : EngineRun) (t : String)
    (h : t ∈ (drainQueue (runProducer run)).1) :
    ∃ r ∈ run.responses, r.hasText = true ∧ r.text = t := by
  rw [drained_texts run] at h
  simp only [List.mem_map, List.mem_filter] at h
  obtain ⟨r, ⟨hr, ht⟩, rfl⟩ := h
  exact ⟨r, hr, ht, rfl⟩

/-- C9 witness. -/
theorem delivered_text_verbatim_witness :
    ∃ r ∈ emptyTextRun.responses, r.hasText = true ∧ r.text = "" :=
  delivered_text_verbatim emptyTextRun "" (by simp [emptyTextRun,
    runProducer, chunkEvents, drainQueue])

/-- State of one session's producer thread: not yet started, running the
engine loop, or returned (its terminal event pushed). -/
inductive ProducerState where
  | notStarted
  | running
  | finished
deriving DecidableEq, Repr

/-- State of one session's consumer coroutine: waiting to acquire
`self._lock`, holding it inside the `async with` block, or exited. -/
inductive ConsumerState where
  | waiting
  | holding
  | exited
deriving DecidableEq, Repr

/-- The two concurrent sessions. -/
inductive Sid where
  | A
  | B
deriving DecidableEq, Repr

/-- One session: its consumer coroutine and its producer thread. -/
structure SessState where
  cons : ConsumerState
  prod : ProducerState
deriving DecidableEq, Repr

/-- Joint state of two concurrent `ChatStream` calls on one `LLMService`
instance, which share the single `self._lock` created on line 62. -/
structure SysState where
  sa : SessState
  sb : SessState
  lockOwner : Option Sid
deriving DecidableEq, Repr

def SysState.sess (s : SysState) : Sid → SessState
  | Sid.A => s.sa
  | Sid.B => s.sb

def SysState.setSess (s : SysState) : Sid → SessState → SysState
  | Sid.A, v => { s with sa := v }
  | Sid.B, v => { s with sb := v }

/-- Interleaving semantics of two concurrent `ChatStream` calls (lines
99-118):

* `acquire`: `async with self._lock` succeeds when the lock is free, and
  `thread.start()` on line 101 follows immediately, so the producer is
  running once the consumer holds the lock — acquire-before-producer-start;
* `prodFinish`: `_run_generation` returns, the engine loop having completed
  or raised and the terminal event having been pushed;
* `consFinish`: the consumer observes the terminal event (`break` on
  `done`, or the exception raised by `context.abort` on `error`) and leaves
  the `async with` block, releasing the lock; possible only after the
  producer finished, since pushing the terminal event is its last action;
* `cancel`: the client disconnects: `asyncio.CancelledError` is raised at
  `await queue.get()`, is a `BaseException` the `except Exception` handler
  does not catch, and unwinds through the `async with`, releasing the lock,
  while the daemon producer thread — which reads no cancellation flag —
  keeps running the engine.

The parameter selects whether client disconnects are under consideration;
`Step true` is the full semantics of the code. -/
inductive Step (cancelPossible : Bool) : SysState → SysState → Prop where
  | acquire (s : SysState) (i : Sid) (h1 : s.lockOwner = none)
      (h2 : (s.sess i).cons = ConsumerState.waiting)
      (h3 : (s.sess i).prod = ProducerState.notStarted) :
      Step cancelPossible s
        { s.setSess i ⟨ConsumerState.holding, ProducerState.running⟩ with
          lockOwner := some i }
  | prodFinish (s : SysState) (i : Sid)
      (h : (s.sess i).prod = ProducerState.running) :
      Step cancelPossible s
        (s.setSess i ⟨(s.sess i).cons, ProducerState.finished⟩)
  | consFinish (s : SysState) (i : Sid) (h1 : s.lockOwner = some i)
      (h2 : (s.sess i).cons = ConsumerState.holding)
      (h3 : (s.sess i).prod = ProducerState.finished) :
      Step cancelPossible s
        { s.setSess i ⟨ConsumerState.exited, ProducerState.finished⟩ with
          lockOwner := none }
  | cancel (s : SysState) (i : Sid) (hc : cancelPossible = true)
      (h1 : s.lockOwner = some i)
      (h2 : (s.sess i).cons = ConsumerState.holding) :
      Step cancelPossible s
        { s.setSess i ⟨ConsumerState.exited, (s.sess i).prod⟩ with
          lockOwner := none }

/-- Both consumers waiting, no producer started, lock free. -/
def initState : SysState :=
  ⟨⟨ConsumerState.waiting, ProducerState.notStarted⟩,
    ⟨ConsumerState.waiting, ProducerState.notStarted⟩, none⟩

/-- States reachable from `initState` by interleaving steps. -/
def Reachable (cancelPossible : Bool) : SysState → Prop :=
  Relation.ReflTransGen (Step cancelPossible) initState

/-- C1 counterexample: with client cancellation in play, a state in which
both producers are running at once is reachable: A acquires the lock and
starts its producer; the client of A disconnects, so A's consumer unwinds
and releases the lock while A's producer keeps running; B then acquires the
lock and starts its producer.  Two sessions are Running system-wide, so the
guard does not serialize Running sessions on the cancellation path. -/
theorem running_overlap_reachable :
    ∃ s, Reachable true s ∧
      (s.sess Sid.A).prod = ProducerState.running ∧
      (s.sess Sid.B).prod = ProducerState.running := by
  refine ⟨⟨⟨ConsumerState.exited, ProducerState.running⟩,
    ⟨ConsumerState.holding, ProducerState.running⟩, some Sid.B⟩,
    ?_, rfl, rfl⟩
  refine Relation.ReflTransGen.head
    (Step.acquire initState Sid.A rfl rfl rfl) ?_
  refine Relation.ReflTransGen.head (Step.cancel _ Sid.A rfl rfl rfl) ?_
  exact Relation.ReflTransGen.single (Step.acquire _ Sid.B rfl rfl rfl)

/-- The lock discipline: a session whose producer is running owns the
lock. -/
def LockInv (s : SysState) : Prop :=
  ((s.sess Sid.A).prod = ProducerState.running → s.lockOwner = some Sid.A) ∧
  ((s.sess Sid.B).prod = ProducerState.running → s.lockOwner = some Sid.B)

theorem lockInv_init : LockInv initState := by
  constructor <;> intro h <;> simp [initState, SysState.sess] at h

theorem lockInv_step {s t : SysState} (hs : LockInv s)
    (h : Step false s t) : LockInv t := by
  obtain ⟨hA, hB⟩ := hs
  cases h with
  | acquire i h1 h2 h3 =>
    cases i <;> constructor <;> intro hr <;>
      simp_all [SysState.sess, SysState.setSess]
  | prodFinish i h =>
    cases i <;> constructor <;> intro hr <;>
      simp_all [SysState.sess, SysState.setSess]
  | consFinish i h1 h2 h3 =>
    cases i <;> constructor <;> intro hr <;>
      simp_all [SysState.sess, SysState.setSess]
  | cancel i hc h1 h2 => simp at hc

theorem lockInv_reachable {s : SysState} (h : Reachable false s) :
    LockInv s := by
  induction h with
  | refl => exact lockInv_init
  | tail _ hstep ih => exact lockInv_step ih hstep

/-- C1 amended: the guard is acquired before the producer starts and is
released on the terminal exit paths (completion and engine failure), and as
long as no client cancels early, at most one session is Running system-wide
and a waiting session can proceed as soon as the lock is free; under early
client cancellation, however, the lock is released while the cancelled
session's producer is still running, so two Running sessions can overlap
(see the counterexample). -/
theorem mutex_without_cancellation (s : SysState) (h : Reachable false s) :
    ¬((s.sess Sid.A).prod = ProducerState.running ∧
      (s.sess Sid.B).prod = ProducerState.running) ∧
    (s.lockOwner = none → (s.sess Sid.B).cons = ConsumerState.waiting →
      (s.sess Sid.B).prod = ProducerState.notStarted →
      ∃ t, Step false s t ∧ t.lockOwner = some Sid.B ∧
        (t.sess Sid.B).prod = ProducerState.running) := by
  have inv := lockInv_reachable h
  constructor
  · rintro ⟨ha, hb⟩
    have h1 := inv.1 ha
    have h2 := inv.2 hb
    rw [h1] at h2
    exact Sid.noConfusion (Option.some.inj h2)
  · intro h1 h2 h3
    exact ⟨_, Step.acquire s Sid.B h1 h2 h3, rfl, rfl⟩

/-- C1 amended witness. -/
theorem mutex_without_cancellation_witness :
    ¬((initState.sess Sid.A).prod = ProducerState.running ∧
      (initState.sess Sid.B).prod = ProducerState.running) ∧
    (initState.lockOwner = none →
      (initState.sess Sid.B).cons = ConsumerState.waiting →
      (initState.sess Sid.B).prod = ProducerState.notStarted →
      ∃ t, Step false initState t ∧ t.lockOwner = some Sid.B ∧
        (t.sess Sid.B).prod = ProducerState.running) :=
  mutex_without_cancellation initState Relation.ReflTransGen.refl

end Worker
